import Mathlib

/-!
Shallow embedding of `src/mturk.py` (classes `MturkClient`, `MTurk`,
`CreateHits`, `ExpireHits`) and proofs about its batch submission and
HIT-management behaviour.

External collaborators (the boto3 remote API, jinja2 template rendering,
the xmltodict parser) are modelled as explicit oracle parameters; Python
floats for money are modelled as exact rationals; thread-completion
nondeterminism is modelled by quantifying over the order in which worker
results are drained from the shared queue.
-/

namespace MturkModel

section Partition

variable {α : Type}

/-- Model of the remainder of the Python extended slice `xs[start::step]`
after the initial `start` elements are dropped: keep the head, then skip
`step - 1` elements, repeatedly. -/
def takeEvery (step : Nat) : List α → List α
  | [] => []
  | x :: rest => x :: takeEvery step (rest.drop (step - 1))
termination_by l => l.length
decreasing_by
  simp only [List.length_drop, List.length_cons]
  omega

/-- Source: `hit_batches = [hits[i::n_threads] for i in range(n_threads)]`
(`create_hit_group` line 228 and `expire_hits` line 277). -/
def partition (xs : List α) (w : Nat) : List (List α) :=
  (List.range w).map (fun k => takeEvery w (xs.drop k))

end Partition

/-- Models `botocore.exceptions.ClientError`, the exception raised by a failing
remote call. -/
inductive ClientError where
  | clientError
  deriving DecidableEq

/-- Models `xmltodict.expat.ExpatError`, the exception raised by a failing XML
parse. -/
inductive XmlError where
  | expatError
  deriving DecidableEq

section Client

variable {π τ : Type}

/-- Model of `MturkClient.create_hit`: issues the remote call and catches
`ClientError`, returning `None` in that case. The remote API is the
oracle `remote`, mapping a request to its outcome. -/
def create_hit (remote : π → Except ClientError τ) (p : π) : Option τ :=
  match remote p with
  | Except.ok r => some r
  | Except.error _ => none

/-- Model of `CreateHits.run`: `responses = [self.amt.create_hit(**point) for point
in self.batch]`, the per-worker serial submission loop. -/
def CreateHits_run (remote : π → Except ClientError τ) (batch : List π) : List (Option τ) :=
  batch.map (create_hit remote)

/-- The queue-draining loop of `create_hit_group` (lines 244-248): each
worker has `put` its local result list; the engine `get`s them in the
order the scheduler delivered them (`queueOrder`, a permutation of the
worker indices) and flattens. -/
def collectResults {ρ : Type} (perWorker : List (List ρ)) (queueOrder : List Nat) : List ρ :=
  (queueOrder.map (fun k => perWorker.getD k [])).flatten

end Client

section QuestionXml

/-- Counts non-overlapping occurrences of the CDATA terminator sequence
`]]>` in a character list, scanning left to right. -/
def cdataEndCount : List Char → Nat
  | [] => 0
  | [_] => 0
  | [_, _] => 0
  | c₁ :: c₂ :: c₃ :: rest =>
    if c₁ = ']' ∧ c₂ = ']' ∧ c₃ = '>' then cdataEndCount rest + 1
    else cdataEndCount (c₂ :: c₃ :: rest)

/-- Value of `self.turk_data_schemas['html']` from `MTurk.__init__`. -/
def turk_data_schemas_html : String :=
  "http://mechanicalturk.amazonaws.com/AWSMechanicalTurkDataSchemas/2011-11-11/HTMLQuestion.xsd"

/-- The fixed text of the `_create_question_xml` f-string before the
interpolated `html_question`. -/
def hitXmlBefore : List Char :=
  "            <HTMLQuestion xmlns=\"".data ++ turk_data_schemas_html.data
    ++ "\">\n                <HTMLContent><![CDATA[\n                    <!DOCTYPE html>\n                        ".data

/-- The fixed text of the f-string between `html_question` and
`frame_height`: it closes the CDATA section. -/
def hitXmlMid : List Char :=
  "\n                    ]]>\n                </HTMLContent>\n                <FrameHeight>".data

/-- The fixed text of the f-string after `frame_height`. -/
def hitXmlAfter : List Char :=
  "</FrameHeight>\n            </HTMLQuestion>".data

/-- The complete `hit_xml` string built by `_create_question_xml`. -/
def hitXmlChars (htmlQuestion : List Char) (frameHeight : Nat) : List Char :=
  hitXmlBefore ++ htmlQuestion ++ hitXmlMid ++ (Nat.repr frameHeight).data ++ hitXmlAfter

/-- Modelled from the spec: `xmltodict.parse` is an external library call;
per the spec's XML-envelope validation rule, the fixed `HTMLQuestion`
envelope is well-formed exactly when its text contains no CDATA
terminator beyond the single one the template itself supplies — any body
containing an unescaped `]]>` prematurely terminates the CDATA section
and leaves an illegal stray terminator, so the parse fails. -/
def expatWellFormed (xml : List Char) : Bool :=
  decide (cdataEndCount xml ≤ 1)

/-- Model of `MTurk._create_question_xml`: builds the envelope, parses it with
the external parser (`parse` oracle), returns it on success and raises
`ExpatError` otherwise. -/
def create_question_xml (parse : List Char → Bool) (htmlQuestion : List Char)
    (frameHeight : Nat) : Except XmlError (List Char) :=
  let hit_xml := hitXmlChars htmlQuestion frameHeight
  if parse hit_xml then Except.ok hit_xml else Except.error XmlError.expatError

end QuestionXml

section Qualifications

/-- The comparators used by `_build_qualifications`. -/
inductive QualComparator where
  | EqualTo
  | GreaterThanOrEqualTo
  | In
  deriving DecidableEq

/-- One `{'Country': loc}` entry. -/
structure LocaleValue where
  Country : String
  deriving DecidableEq

/-- A qualification-requirement dict. `IntegerValues` and `LocaleValues`
are `none` when the key is absent from the dict; `LocaleValues` is
`some none` when the key is present but holds Python `None`. -/
structure QualificationRequirement where
  QualificationTypeId : String
  Comparator : QualComparator
  IntegerValues : Option (List Nat) := none
  LocaleValues : Option (Option (List LocaleValue)) := none
  RequiredToPreview : Bool
  deriving DecidableEq

/-- Value of `self.qualifications['high_accept_rate']` from `MTurk.__init__`. -/
def qualifications_high_accept_rate : Nat := 95

/-- Value of `self.qualifications['english_speaking']` from `MTurk.__init__`. -/
def english_speaking : List String := ["US", "CA", "AU", "NZ", "GB"]

/-- Value of `self.qualifications['us_only']` from `MTurk.__init__`. -/
def us_only : List String := ["US"]

/-- Model of `MTurk._build_qualifications(locales)`. `locales = none` models the
Python default `locales=None`; a supplied list is wrapped into
`{'Country': loc}` dicts (the `if locales:` branch leaves falsy values
unchanged, which coincides with mapping over the empty list). The
`master` dict is built but not returned, as in the source. -/
def build_qualifications (inSandbox : Bool) (highAcceptRate : Nat)
    (locales : Option (List String)) : List QualificationRequirement :=
  let localeValues : Option (List LocaleValue) :=
    locales.map (fun ls => ls.map (fun loc => { Country := loc }))
  let mastersId : String :=
    if inSandbox then "2ARFPLSP75KLA8M8DH1HTEQVJT3SY6" else "2F1QJWKUDD8XADTFD2Q0G6UTO95ALH"
  let _master : QualificationRequirement :=
    { QualificationTypeId := mastersId
      Comparator := QualComparator.EqualTo
      RequiredToPreview := true }
  let high_accept_rate : QualificationRequirement :=
    { QualificationTypeId := "000000000000000000L0"
      Comparator := QualComparator.GreaterThanOrEqualTo
      IntegerValues := some [highAcceptRate]
      RequiredToPreview := true }
  let location_based : QualificationRequirement :=
    { QualificationTypeId := "00000000000000000071"
      Comparator := QualComparator.In
      LocaleValues := some localeValues
      RequiredToPreview := true }
  [high_accept_rate, location_based]

end Qualifications

section Group

/-- The fields of `basic_hit_params` that `expected_cost` and
`create_html_hit_params` read: `Reward` (a decimal string, parsed by
`float(...)`, modelled exactly as a rational), `MaxAssignments`, and the
popped `frame_height`. -/
structure BasicHitParams where
  Reward : ℚ
  MaxAssignments : Nat
  frame_height : Nat

/-- The HIT-parameter dict produced by `create_html_hit_params` for one
data point: the validated question XML plus the qualification
requirements (the remaining `basic_hit_params` keys are carried along
unchanged and are irrelevant to the claims, apart from the two read by
the cost gate). -/
structure HitParams where
  Question : List Char
  QualificationRequirements : List QualificationRequirement
  Reward : ℚ
  MaxAssignments : Nat
  deriving DecidableEq

/-- Model of `MTurk.expected_cost`: computes `len(data) * Reward * MaxAssignments * 1.2`
and returns Python `None` (the insufficient-funds sentinel) when it
exceeds the balance, and the fee-inclusive cost otherwise. -/
def expected_cost (dataLen : Nat) (reward : ℚ) (maxAssignments : Nat)
    (currentBalance : ℚ) : Option ℚ :=
  let cost : ℚ := (dataLen : ℚ) * reward * (maxAssignments : ℚ)
  let cost_plus_fee : ℚ := cost * (1.2 : ℚ)
  if cost_plus_fee > currentBalance then none else some cost_plus_fee

/-- Python truthiness of the value returned by `expected_cost`, as
tested by `if not self.expected_cost(...)`: `None` and `0.0` are falsy,
every other float is truthy. -/
def optionFloatTruthy : Option ℚ → Bool
  | none => false
  | some c => decide (c ≠ 0)

/-- Model of `MTurk.create_html_hit_params` for one data point: renders the
question (the rendered HTML is supplied directly, since templating is
external), validates the XML envelope, and attaches the qualification
requirements — always with the `english_speaking` locale list. -/
def create_html_hit_params (parse : List Char → Bool) (inSandbox : Bool)
    (basic : BasicHitParams) (questionHtml : List Char) : Except XmlError HitParams :=
  match create_question_xml parse questionHtml basic.frame_height with
  | Except.error e => Except.error e
  | Except.ok xml =>
      Except.ok
        { Question := xml
          QualificationRequirements :=
            build_qualifications inSandbox qualifications_high_accept_rate (some english_speaking)
          Reward := basic.Reward
          MaxAssignments := basic.MaxAssignments }

/-- The list comprehension of `create_hit_group` line 227: builds the
HIT parameters for every data point left to right; the first raised
`ExpatError` propagates and aborts the whole comprehension. -/
def buildHitParamsList {σ : Type} (parse : List Char → Bool) (inSandbox : Bool)
    (basic : BasicHitParams) (render : σ → List Char) :
    List σ → Except XmlError (List HitParams)
  | [] => Except.ok []
  | point :: rest =>
    match create_html_hit_params parse inSandbox basic (render point) with
    | Except.error e => Except.error e
    | Except.ok hp =>
      match buildHitParamsList parse inSandbox basic render rest with
      | Except.error e => Except.error e
      | Except.ok hps => Except.ok (hp :: hps)

/-- Observable outcome of `create_hit_group`: the Python `None` return
when the cost gate's value is falsy, a propagated `ExpatError`, or the
combined `hits_created` list. -/
inductive GroupOutcome (τ : Type) where
  | aborted
  | raisedXml (e : XmlError)
  | submitted (hits_created : List (Option τ))
  deriving DecidableEq

/-- Model of `MTurk.create_hit_group`: cost gate, then parameter construction,
then round-robin partition over `n_threads` workers, each submitting its
batch serially; results are drained from the shared queue in scheduler
order and flattened. The second component counts the remote
`create_hit` calls issued. -/
def create_hit_group {σ τ : Type} (remote : HitParams → Except ClientError τ)
    (parse : List Char → Bool) (inSandbox : Bool) (currentBalance : ℚ)
    (nThreads : Nat) (basic : BasicHitParams) (render : σ → List Char)
    (data : List σ) (queueOrder : List Nat) : GroupOutcome τ × Nat :=
  if optionFloatTruthy (expected_cost data.length basic.Reward basic.MaxAssignments currentBalance)
      = false then
    (GroupOutcome.aborted, 0)
  else
    match buildHitParamsList parse inSandbox basic render data with
    | Except.error e => (GroupOutcome.raisedXml e, 0)
    | Except.ok hit_params =>
      let hit_batches := partition hit_params nThreads
      let perWorker := hit_batches.map (CreateHits_run remote)
      let hits_created := collectResults perWorker queueOrder
      (GroupOutcome.submitted hits_created, (hit_batches.map List.length).sum)

end Group

section Management

/-- The `HITStatus` values of a HIT handle. -/
inductive HITState where
  | Assignable
  | Reviewing
  | Reviewable
  | Disposed
  deriving DecidableEq

/-- A HIT dict as consumed by `delete_hits` / `expire_hits`. -/
structure HitHandle where
  HITId : String
  HITStatus : HITState
  deriving DecidableEq

/-- Model of `MTurk.delete_hits`: for each handle, skip it when its status is
already `Disposed`, otherwise issue the remote delete call and swallow
any `ClientError`. Returns the ids for which a remote delete call was
issued, in order (the call trace; the source's `responses` list is never
appended to). -/
def delete_hits (remote : String → Except ClientError Unit) : List HitHandle → List String
  | [] => []
  | h :: rest =>
    if h.HITStatus ≠ HITState.Disposed then
      match remote h.HITId with
      | Except.ok _ => h.HITId :: delete_hits remote rest
      | Except.error _ => h.HITId :: delete_hits remote rest
    else delete_hits remote rest

/-- Source of the date: `ExpireHits.__init__`: `self.exp_date = datetime.datetime(2001, 1, 1)`. -/
structure ExpDate where
  year : Nat
  month : Nat
  day : Nat
  deriving DecidableEq

/-- The fixed past expiration instant. -/
def exp_date : ExpDate := ⟨2001, 1, 1⟩

/-- A mutating remote call issued during force-delete. -/
inductive RemoteCall where
  | updateExpiration (hitId : String) (expireAt : ExpDate)
  | deleteHit (hitId : String)
  deriving DecidableEq

/-- Whether a remote call is an expiration update. -/
def RemoteCall.isExpireCall : RemoteCall → Bool
  | RemoteCall.updateExpiration _ _ => true
  | RemoteCall.deleteHit _ => false

/-- Whether a remote call is a delete. -/
def RemoteCall.isDeleteCall : RemoteCall → Bool
  | RemoteCall.updateExpiration _ _ => false
  | RemoteCall.deleteHit _ => true

/-- Model of `MTurk.expire_hits`: partitions the handles round-robin over
`n_threads` `ExpireHits` workers; each worker calls
`update_expiration_for_hit(HITId=h['HITId'], ExpireAt=self.exp_date)`
for every handle of its batch, in batch order. Returns each worker's
call sequence. -/
def expire_hits_runs (nThreads : Nat) (hits : List HitHandle) : List (List RemoteCall) :=
  (partition hits nThreads).map
    (fun batch => batch.map (fun h => RemoteCall.updateExpiration h.HITId exp_date))

/-- Model of `MTurk.force_delete_hits`: `expire_hits` starts its workers and
joins them all before returning, then `delete_hits` runs. The combined
remote-call trace is therefore some interleaving `expireSched` of the
expiration calls (constrained in the theorems to be a permutation of
the workers' calls) followed by the delete calls. -/
def force_delete_hits (remote : String → Except ClientError Unit) (_nThreads : Nat)
    (hits : List HitHandle) (expireSched : List RemoteCall) : List RemoteCall :=
  expireSched ++ (delete_hits remote hits).map RemoteCall.deleteHit

/-- The `AssignmentStatus` values. -/
inductive AssignmentState where
  | Submitted
  | Approved
  | Rejected
  deriving DecidableEq

/-- One assignment dict from `list_assignments_for_hit`. -/
structure AssignmentRecord where
  AssignmentId : String
  AssignmentStatus : AssignmentState
  deriving DecidableEq

/-- One element of the list passed to `approve_assignments`: a response
dict with its `Assignments` list. -/
structure HitAssignments where
  Assignments : List AssignmentRecord
  deriving DecidableEq

/-- The arguments of one remote `approve_assignment` call. -/
structure ApproveCall where
  AssignmentId : String
  RequesterFeedback : String
  OverrideRejection : Bool
  deriving DecidableEq

/-- The inner loop of `MTurk.approve_assignments` over one response's
`Assignments`: approve exactly the records whose status is `Submitted`,
with feedback `'good'` and `OverrideRejection=False`. Returns the call
trace. -/
def approve_assignments_inner : List AssignmentRecord → List ApproveCall
  | [] => []
  | a :: rest =>
    if a.AssignmentStatus = AssignmentState.Submitted then
      { AssignmentId := a.AssignmentId
        RequesterFeedback := "good"
        OverrideRejection := false } :: approve_assignments_inner rest
    else approve_assignments_inner rest

/-- Model of `MTurk.approve_assignments`: the outer loop over responses. Returns
the remote call trace. -/
def approve_assignments : List HitAssignments → List ApproveCall
  | [] => []
  | hit :: rest => approve_assignments_inner hit.Assignments ++ approve_assignments rest

end Management

/-! ## Lemmas about the round-robin partition -/

section PartitionLemmas

variable {α : Type}

theorem takeEvery_getElem?_aux (step : Nat) (hs : 1 ≤ step) :
    ∀ (n : Nat) (l : List α), l.length ≤ n → ∀ (j : Nat),
      (takeEvery step l)[j]? = l[j * step]? := by
  intro n
  induction n with
  | zero =>
    intro l hl j
    have hnil : l = [] := List.eq_nil_of_length_eq_zero (Nat.le_zero.mp hl)
    subst hnil
    simp [takeEvery]
  | succ n ih =>
    intro l hl j
    cases l with
    | nil => simp [takeEvery]
    | cons x rest =>
      rw [takeEvery]
      cases j with
      | zero => simp
      | succ j =>
        have hlen : (rest.drop (step - 1)).length ≤ n := by
          simp only [List.length_drop]
          simp only [List.length_cons] at hl
          omega
        have hidx : (j + 1) * step = (step - 1 + j * step) + 1 := by
          have h : (j + 1) * step = j * step + step := Nat.succ_mul j step
          omega
        rw [List.getElem?_cons_succ, ih (rest.drop (step - 1)) hlen j,
          List.getElem?_drop, hidx, List.getElem?_cons_succ]

theorem takeEvery_getElem? (step : Nat) (hs : 1 ≤ step) (l : List α) (j : Nat) :
    (takeEvery step l)[j]? = l[j * step]? :=
  takeEvery_getElem?_aux step hs l.length l le_rfl j

theorem takeEvery_length_aux (step : Nat) (hs : 1 ≤ step) :
    ∀ (n : Nat) (l : List α), l.length ≤ n →
      (takeEvery step l).length = (l.length + (step - 1)) / step := by
  intro n
  induction n with
  | zero =>
    intro l hl
    have hnil : l = [] := List.eq_nil_of_length_eq_zero (Nat.le_zero.mp hl)
    subst hnil
    simp [takeEvery]
    exact (Nat.div_eq_of_lt (by omega)).symm
  | succ n ih =>
    intro l hl
    cases l with
    | nil =>
      simp [takeEvery]
      exact (Nat.div_eq_of_lt (by omega)).symm
    | cons x rest =>
      rw [takeEvery]
      simp only [List.length_cons]
      rw [ih (rest.drop (step - 1)) (by
        simp only [List.length_drop]
        simp only [List.length_cons] at hl
        omega)]
      simp only [List.length_drop]
      rcases Nat.le_total (step - 1) rest.length with h | h
      · rw [Nat.sub_add_cancel h]
        have heq : rest.length + 1 + (step - 1) = rest.length + step := by omega
        rw [heq, Nat.add_div_right _ (by omega)]
      · have h1 : rest.length - (step - 1) = 0 := by omega
        rw [h1, Nat.zero_add, Nat.div_eq_of_lt (by omega)]
        have h2 : (rest.length + 1 + (step - 1)) / step = 1 := by
          apply Nat.div_eq_of_lt_le <;> omega
        omega

theorem takeEvery_length (step : Nat) (hs : 1 ≤ step) (l : List α) :
    (takeEvery step l).length = (l.length + (step - 1)) / step :=
  takeEvery_length_aux step hs l.length l le_rfl

theorem partition_getD (xs : List α) (w k : Nat) (hk : k < w) :
    (partition xs w).getD k [] = takeEvery w (xs.drop k) := by
  rw [partition, List.getD_eq_getElem?_getD, List.getElem?_map, List.getElem?_range hk]
  rfl

theorem partition_round_robin (xs : List α) (w : Nat) (hw : 1 ≤ w)
    (i : Nat) (_hi : i < xs.length) :
    ((partition xs w).getD (i % w) [])[i / w]? = xs[i]? := by
  rw [partition_getD xs w _ (Nat.mod_lt _ (by omega)), takeEvery_getElem? w hw,
    List.getElem?_drop]
  congr 1
  rw [Nat.mul_comm]
  exact Nat.mod_add_div i w

theorem partition_flatten_perm (xs : List α) (w : Nat) (hw : 1 ≤ w) :
    (partition xs w).flatten.Perm xs := by
  obtain ⟨w', rfl⟩ : ∃ w', w = w' + 1 := ⟨w - 1, by omega⟩
  induction xs with
  | nil =>
    have hconst : partition ([] : List α) (w' + 1)
        = (List.range (w' + 1)).map (fun _ => ([] : List α)) := by
      simp [partition, takeEvery]
    rw [hconst]
    simp
  | cons x rest ih =>
    have hhead : takeEvery (w' + 1) (x :: rest) = x :: takeEvery (w' + 1) (rest.drop w') := by
      rw [takeEvery]
      simp
    have hpart : partition (x :: rest) (w' + 1)
        = (x :: takeEvery (w' + 1) (rest.drop w'))
            :: (List.range w').map (fun k => takeEvery (w' + 1) (rest.drop k)) := by
      rw [partition, List.range_succ_eq_map, List.map_cons, List.map_map]
      rw [List.drop_zero, hhead]
      congr 1
    have hrest : (partition rest (w' + 1)).flatten
        = ((List.range w').map (fun k => takeEvery (w' + 1) (rest.drop k))).flatten
            ++ takeEvery (w' + 1) (rest.drop w') := by
      rw [partition, List.range_succ, List.map_append, List.flatten_append]
      simp
    rw [hpart, List.flatten_cons, List.cons_append]
    refine List.Perm.cons x ?_
    refine List.Perm.trans List.perm_append_comm ?_
    rw [← hrest]
    exact ih

theorem partition_balanced (xs : List α) (w : Nat) (hw : 1 ≤ w)
    (b₁ b₂ : List α) (h₁ : b₁ ∈ partition xs w) (h₂ : b₂ ∈ partition xs w) :
    b₁.length ≤ b₂.length + 1 := by
  simp only [partition, List.mem_map, List.mem_range] at h₁ h₂
  obtain ⟨k₁, hk₁, rfl⟩ := h₁
  obtain ⟨k₂, hk₂, rfl⟩ := h₂
  rw [takeEvery_length _ hw, takeEvery_length _ hw]
  simp only [List.length_drop]
  have hstep1 : (xs.length - k₁ + (w - 1)) / w ≤ (xs.length + (w - 1)) / w :=
    Nat.div_le_div_right (by omega)
  have hstep2 : (xs.length + (w - 1)) / w ≤ (xs.length + w) / w :=
    Nat.div_le_div_right (by omega)
  have hstep3 : (xs.length + w) / w = xs.length / w + 1 := Nat.add_div_right _ (by omega)
  have hstep4 : xs.length / w ≤ (xs.length - k₂ + (w - 1)) / w :=
    Nat.div_le_div_right (by omega)
  omega

end PartitionLemmas

/-! ## Claim theorems -/

section C1

variable {α : Type}

/-- Claim C1: partitioning is round-robin — for every input sequence and
worker count `w ≥ 1`, the item at global index `i` lands in batch
`i % w` (at local position `i / w`), the flattened batches are a
permutation of the input (no loss, no duplication), and any two batch
sizes differ by at most 1. -/
theorem c1_partition_round_robin (xs : List α) (w : Nat) (hw : 1 ≤ w) :
    (∀ i, i < xs.length → ((partition xs w).getD (i % w) [])[i / w]? = xs[i]?)
    ∧ (partition xs w).flatten.Perm xs
    ∧ ∀ b₁ ∈ partition xs w, ∀ b₂ ∈ partition xs w, b₁.length ≤ b₂.length + 1 :=
  ⟨fun i hi => partition_round_robin xs w hw i hi,
   partition_flatten_perm xs w hw,
   fun b₁ h₁ b₂ h₂ => partition_balanced xs w hw b₁ b₂ h₁ h₂⟩

/-- Witness for C1 at the concrete input `[0,…,6]` with 3 workers. -/
theorem c1_partition_round_robin_witness :
    1 ≤ 3
    ∧ ((∀ i, i < ([0, 1, 2, 3, 4, 5, 6] : List Nat).length →
          ((partition ([0, 1, 2, 3, 4, 5, 6] : List Nat) 3).getD (i % 3) [])[i / 3]?
            = ([0, 1, 2, 3, 4, 5, 6] : List Nat)[i]?)
        ∧ (partition ([0, 1, 2, 3, 4, 5, 6] : List Nat) 3).flatten.Perm [0, 1, 2, 3, 4, 5, 6]
        ∧ ∀ b₁ ∈ partition ([0, 1, 2, 3, 4, 5, 6] : List Nat) 3,
            ∀ b₂ ∈ partition ([0, 1, 2, 3, 4, 5, 6] : List Nat) 3,
              b₁.length ≤ b₂.length + 1) :=
  ⟨by decide, c1_partition_round_robin [0, 1, 2, 3, 4, 5, 6] 3 (by decide)⟩

end C1

section Engine

variable {π τ : Type}

theorem map_getD_nil {A B : Type} (f : List A → List B) (hf : f [] = [])
    (L : List (List A)) (k : Nat) :
    (L.map f).getD k [] = f (L.getD k []) := by
  rw [List.getD_eq_getElem?_getD, List.getElem?_map, List.getD_eq_getElem?_getD]
  cases L[k]? with
  | none => simp [hf]
  | some b => rfl

theorem range_map_getD {β : Type} (L : List (List β)) :
    (List.range L.length).map (fun k => L.getD k []) = L := by
  apply List.ext_getElem
  · simp
  · intro i h1 h2
    simp only [List.getElem_map, List.getElem_range]
    exact List.getD_eq_getElem L [] h2

/-- Claim C3: a failing remote `create_hit` call is caught and recorded
as `None` at that item's position in the worker's local result list, and
every other item of the batch is still submitted, in batch order. -/
theorem c3_remote_failure_isolated (remote : π → Except ClientError τ)
    (batch : List π) (i : Nat) (hi : i < batch.length) (e : ClientError)
    (hfail : remote batch[i] = Except.error e) :
    (CreateHits_run remote batch).length = batch.length
    ∧ (CreateHits_run remote batch)[i]? = some none
    ∧ ∀ j (hj : j < batch.length),
        (CreateHits_run remote batch)[j]? = some (create_hit remote batch[j]) := by
  refine ⟨by simp [CreateHits_run], ?_, ?_⟩
  · rw [CreateHits_run, List.getElem?_map, List.getElem?_eq_getElem hi]
    simp [create_hit, hfail]
  · intro j hj
    rw [CreateHits_run, List.getElem?_map, List.getElem?_eq_getElem hj]
    rfl

/-- Witness for C3: three specs, the remote call failing on the middle
one. -/
theorem c3_remote_failure_isolated_witness :
    (1 < ([0, 1, 2] : List Nat).length
      ∧ (fun n => if n = 1 then Except.error ClientError.clientError else Except.ok n)
          (([0, 1, 2] : List Nat)[1]) = Except.error ClientError.clientError)
    ∧ ((CreateHits_run (fun n => if n = 1 then Except.error ClientError.clientError
            else Except.ok n) [0, 1, 2]).length = ([0, 1, 2] : List Nat).length
      ∧ (CreateHits_run (fun n => if n = 1 then Except.error ClientError.clientError
            else Except.ok n) [0, 1, 2])[1]? = some none
      ∧ ∀ j (hj : j < ([0, 1, 2] : List Nat).length),
          (CreateHits_run (fun n => if n = 1 then Except.error ClientError.clientError
              else Except.ok n) [0, 1, 2])[j]?
            = some (create_hit (fun n => if n = 1 then Except.error ClientError.clientError
                else Except.ok n) (([0, 1, 2] : List Nat)[j]))) :=
  ⟨⟨by decide, by rfl⟩,
   c3_remote_failure_isolated _ [0, 1, 2] 1 (by decide) ClientError.clientError (by rfl)⟩

/-- Claim C4: each worker's local result list has one entry per item of
its batch in batch order, and the engine's combined list — the queue
drained in any scheduler order — is the concatenation of the per-worker
lists, a permutation of the results for the full input. -/
theorem c4_per_worker_order (remote : π → Except ClientError τ)
    (specs : List π) (w : Nat) (hw : 1 ≤ w) (queueOrder : List Nat)
    (hq : queueOrder.Perm (List.range w)) :
    (∀ k j : Nat,
        (((partition specs w).map (CreateHits_run remote)).getD k [])[j]?
          = (((partition specs w).getD k [])[j]?).map (create_hit remote))
    ∧ (collectResults ((partition specs w).map (CreateHits_run remote)) queueOrder)
        = (queueOrder.map
            (fun k => ((partition specs w).map (CreateHits_run remote)).getD k [])).flatten
    ∧ (collectResults ((partition specs w).map (CreateHits_run remote)) queueOrder).Perm
        (specs.map (create_hit remote)) := by
  refine ⟨?_, rfl, ?_⟩
  · intro k j
    rw [map_getD_nil (CreateHits_run remote) rfl, CreateHits_run, List.getElem?_map]
  · rw [collectResults]
    set L := (partition specs w).map (CreateHits_run remote) with hL
    have hlen : L.length = w := by simp [hL, partition]
    have hperm1 := (hq.map (fun k => L.getD k [])).flatten
    refine hperm1.trans ?_
    rw [← hlen, range_map_getD, hL]
    have hrw : CreateHits_run remote = List.map (create_hit remote) := rfl
    rw [hrw, ← List.map_flatten]
    exact (partition_flatten_perm specs w hw).map _

/-- Witness for C4: five specs over two workers, drained in reversed
worker order. -/
theorem c4_per_worker_order_witness :
    (1 ≤ 2 ∧ ([1, 0] : List Nat).Perm (List.range 2))
    ∧ ((∀ k j : Nat,
          (((partition ([10, 20, 30, 40, 50] : List Nat) 2).map
              (CreateHits_run (fun n => Except.ok n))).getD k [])[j]?
            = (((partition ([10, 20, 30, 40, 50] : List Nat) 2).getD k [])[j]?).map
                (create_hit (fun n => Except.ok n)))
      ∧ (collectResults ((partition ([10, 20, 30, 40, 50] : List Nat) 2).map
            (CreateHits_run (fun n => Except.ok n))) [1, 0])
          = (([1, 0] : List Nat).map
              (fun k => ((partition ([10, 20, 30, 40, 50] : List Nat) 2).map
                  (CreateHits_run (fun n => Except.ok n))).getD k [])).flatten
      ∧ (collectResults ((partition ([10, 20, 30, 40, 50] : List Nat) 2).map
            (CreateHits_run (fun n => Except.ok n))) [1, 0]).Perm
          (([10, 20, 30, 40, 50] : List Nat).map (create_hit (fun n => Except.ok n)))) :=
  ⟨⟨by decide, by decide⟩,
   c4_per_worker_order (fun n => Except.ok n) [10, 20, 30, 40, 50] 2 (by decide)
     [1, 0] (by decide)⟩

end Engine

section DeleteApprove

/-- Claim C7: `delete_hits` issues a remote delete call exactly for the
handles whose status is not `Disposed`, in input order, for every remote
oracle — so a caught failure of one delete call never suppresses the
remaining calls, and an already-`Disposed` handle never produces a call. -/
theorem c7_delete_skips_disposed (remote : String → Except ClientError Unit)
    (hits : List HitHandle) :
    delete_hits remote hits
      = (hits.filter (fun h => h.HITStatus ≠ HITState.Disposed)).map (fun h => h.HITId) := by
  induction hits with
  | nil => rfl
  | cons h rest ih =>
    rw [delete_hits, List.filter_cons]
    by_cases hd : h.HITStatus = HITState.Disposed
    · simp [hd, ih]
    · cases hr : remote h.HITId <;> simp [hd, hr, ih]

theorem approve_assignments_inner_eq (l : List AssignmentRecord) :
    approve_assignments_inner l
      = (l.filter (fun a => a.AssignmentStatus = AssignmentState.Submitted)).map
          (fun a => { AssignmentId := a.AssignmentId, RequesterFeedback := "good",
                      OverrideRejection := false }) := by
  induction l with
  | nil => rfl
  | cons a rest ih =>
    rw [approve_assignments_inner, List.filter_cons]
    by_cases hs : a.AssignmentStatus = AssignmentState.Submitted
    · simp [hs, ih]
    · simp [hs, ih]

/-- Claim C8: approval issues a remote approve call exactly for the
records whose status is `Submitted`, each with the fixed feedback
`'good'` and the rejection override disabled; `Approved` and `Rejected`
records produce no call. -/
theorem c8_approve_only_submitted (assignments : List HitAssignments) :
    approve_assignments assignments
      = (((assignments.map (fun hit => hit.Assignments)).flatten.filter
            (fun a => a.AssignmentStatus = AssignmentState.Submitted)).map
          (fun a => { AssignmentId := a.AssignmentId, RequesterFeedback := "good",
                      OverrideRejection := false })) := by
  induction assignments with
  | nil => rfl
  | cons hit rest ih =>
    rw [approve_assignments, List.map_cons, List.flatten_cons, List.filter_append,
      List.map_append, approve_assignments_inner_eq, ih]

end DeleteApprove

section ForceDelete

theorem expire_runs_flatten (w : Nat) (hits : List HitHandle) :
    (expire_hits_runs w hits).flatten
      = ((partition hits w).flatten).map
          (fun h => RemoteCall.updateExpiration h.HITId exp_date) := by
  rw [expire_hits_runs, ← List.map_flatten]

/-- Claim C9: force-delete is sequenced — in the combined remote-call
trace, every expiration call (carrying the past instant 2001-01-01)
precedes every delete call, for every interleaving of the expiration
workers' calls; moreover every handle receives an expiration call. -/
theorem c9_force_delete_sequenced (remote : String → Except ClientError Unit)
    (w : Nat) (hw : 1 ≤ w) (hits : List HitHandle) (expireSched : List RemoteCall)
    (hsched : expireSched.Perm (expire_hits_runs w hits).flatten) :
    (∀ (i j : Nat) (c d : RemoteCall),
        (force_delete_hits remote w hits expireSched)[i]? = some c →
        (force_delete_hits remote w hits expireSched)[j]? = some d →
        c.isDeleteCall = true → d.isExpireCall = true → j < i)
    ∧ (∀ h ∈ hits, RemoteCall.updateExpiration h.HITId exp_date
        ∈ force_delete_hits remote w hits expireSched)
    ∧ (∀ c ∈ expireSched, c.isExpireCall = true) := by
  have hexp : ∀ c ∈ expireSched, c.isExpireCall = true := by
    intro c hc
    have hc2 := hsched.mem_iff.mp hc
    rw [expire_runs_flatten] at hc2
    obtain ⟨h, _, rfl⟩ := List.mem_map.mp hc2
    rfl
  refine ⟨?_, ?_, hexp⟩
  · intro i j c d hi hj hcDel hdExp
    have hiLen : expireSched.length ≤ i := by
      by_contra hcon
      push_neg at hcon
      rw [force_delete_hits, List.getElem?_append_left hcon] at hi
      have hmem : c ∈ expireSched := List.getElem?_mem hi
      have := hexp c hmem
      cases c with
      | updateExpiration a b => simp [RemoteCall.isDeleteCall] at hcDel
      | deleteHit a => simp [RemoteCall.isExpireCall] at this
    have hjLen : j < expireSched.length := by
      by_contra hcon
      push_neg at hcon
      rw [force_delete_hits, List.getElem?_append_right hcon] at hj
      have hmem : d ∈ (delete_hits remote hits).map RemoteCall.deleteHit :=
        List.getElem?_mem hj
      obtain ⟨s, _, rfl⟩ := List.mem_map.mp hmem
      simp [RemoteCall.isExpireCall] at hdExp
    omega
  · intro h hh
    have h1 : h ∈ (partition hits w).flatten :=
      (partition_flatten_perm hits w hw).mem_iff.mpr hh
    have h2 : RemoteCall.updateExpiration h.HITId exp_date
        ∈ (expire_hits_runs w hits).flatten := by
      rw [expire_runs_flatten]
      exact List.mem_map_of_mem _ h1
    exact List.mem_append_left _ (hsched.mem_iff.mpr h2)

/-- Witness for C9: two handles, one worker, the schedule being the
workers' own call order. -/
theorem c9_force_delete_sequenced_witness :
    (1 ≤ 1
      ∧ ((expire_hits_runs 1 [⟨"h1", HITState.Assignable⟩, ⟨"h2", HITState.Disposed⟩]).flatten).Perm
          (expire_hits_runs 1 [⟨"h1", HITState.Assignable⟩, ⟨"h2", HITState.Disposed⟩]).flatten)
    ∧ ((∀ (i j : Nat) (c d : RemoteCall),
          (force_delete_hits (fun _ => Except.ok ()) 1
            [⟨"h1", HITState.Assignable⟩, ⟨"h2", HITState.Disposed⟩]
            (expire_hits_runs 1 [⟨"h1", HITState.Assignable⟩, ⟨"h2", HITState.Disposed⟩]).flatten)[i]?
              = some c →
          (force_delete_hits (fun _ => Except.ok ()) 1
            [⟨"h1", HITState.Assignable⟩, ⟨"h2", HITState.Disposed⟩]
            (expire_hits_runs 1 [⟨"h1", HITState.Assignable⟩, ⟨"h2", HITState.Disposed⟩]).flatten)[j]?
              = some d →
          c.isDeleteCall = true → d.isExpireCall = true → j < i)
      ∧ (∀ h ∈ [(⟨"h1", HITState.Assignable⟩ : HitHandle), ⟨"h2", HITState.Disposed⟩],
          RemoteCall.updateExpiration h.HITId exp_date
            ∈ force_delete_hits (fun _ => Except.ok ()) 1
                [⟨"h1", HITState.Assignable⟩, ⟨"h2", HITState.Disposed⟩]
                (expire_hits_runs 1 [⟨"h1", HITState.Assignable⟩, ⟨"h2", HITState.Disposed⟩]).flatten)
      ∧ (∀ c ∈ (expire_hits_runs 1
            [⟨"h1", HITState.Assignable⟩, ⟨"h2", HITState.Disposed⟩]).flatten,
          c.isExpireCall = true)) :=
  ⟨⟨by decide, List.Perm.refl _⟩,
   c9_force_delete_sequenced (fun _ => Except.ok ()) 1 (by decide)
     [⟨"h1", HITState.Assignable⟩, ⟨"h2", HITState.Disposed⟩] _ (List.Perm.refl _)⟩

end ForceDelete

section CdataLemmas

theorem cdataEndCount_cons_ne (c : Char) (l : List Char) (hc : c ≠ ']') :
    cdataEndCount (c :: l) = cdataEndCount l := by
  match l with
  | [] => rfl
  | [d] => rfl
  | d :: e :: r => simp [cdataEndCount, hc]

theorem cdataEndCount_append_no_bracket (a b : List Char) (ha : ']' ∉ a) :
    cdataEndCount (a ++ b) = cdataEndCount b := by
  induction a with
  | nil => simp
  | cons c a' ih =>
    have hc : c ≠ ']' := by
      intro h
      exact ha (by rw [← h]; exact List.mem_cons_self c a')
    rw [List.cons_append, cdataEndCount_cons_ne c _ hc,
      ih (fun h => ha (List.mem_cons_of_mem c h))]

theorem cdataEndCount_append_aux (b : List Char) (hb1 : b.head? ≠ some ']')
    (hb2 : b.head? ≠ some '>') :
    ∀ (n : Nat) (a : List Char), a.length ≤ n →
      cdataEndCount (a ++ b) = cdataEndCount a + cdataEndCount b := by
  intro n
  induction n with
  | zero =>
    intro a ha
    have hnil : a = [] := List.eq_nil_of_length_eq_zero (Nat.le_zero.mp ha)
    subst hnil
    simp [cdataEndCount]
  | succ n ih =>
    intro a ha
    match a with
    | [] => simp [cdataEndCount]
    | [c] =>
      rw [List.cons_append, List.nil_append,
        show cdataEndCount [c] = 0 from rfl, Nat.zero_add]
      cases b with
      | nil => rfl
      | cons d b' =>
        have hd : d ≠ ']' := fun h => hb1 (congrArg some h)
        cases b' with
        | nil => rfl
        | cons e r => simp [cdataEndCount, hd]
    | [c, c'] =>
      rw [show ([c, c'] : List Char) ++ b = c :: c' :: b from rfl,
        show cdataEndCount [c, c'] = 0 from rfl, Nat.zero_add]
      cases b with
      | nil => rfl
      | cons d b' =>
        have hd2 : d ≠ '>' := fun h => hb2 (congrArg some h)
        cases b' with
        | nil => simp [cdataEndCount, hd2]
        | cons e r =>
          have hd1 : d ≠ ']' := fun h => hb1 (congrArg some h)
          simp [cdataEndCount, hd1, hd2]
    | c :: c' :: c'' :: r =>
      rw [List.cons_append, List.cons_append, List.cons_append]
      by_cases hcond : c = ']' ∧ c' = ']' ∧ c'' = '>'
      · obtain ⟨rfl, rfl, rfl⟩ := hcond
        have e1 : cdataEndCount (']' :: ']' :: '>' :: (r ++ b))
            = cdataEndCount (r ++ b) + 1 := by
          simp [cdataEndCount]
        have e2 : cdataEndCount (']' :: ']' :: '>' :: r) = cdataEndCount r + 1 := by
          simp [cdataEndCount]
        rw [e1, e2, ih r (by simp only [List.length_cons] at ha; omega)]
        omega
      · have e1 : cdataEndCount (c :: c' :: c'' :: (r ++ b))
            = cdataEndCount (c' :: c'' :: (r ++ b)) := by
          simp only [cdataEndCount]
          rw [if_neg hcond]
        have e2 : cdataEndCount (c :: c' :: c'' :: r) = cdataEndCount (c' :: c'' :: r) := by
          simp only [cdataEndCount]
          rw [if_neg hcond]
        rw [e1, e2]
        exact ih (c' :: c'' :: r) (by simp only [List.length_cons] at ha ⊢; omega)

theorem cdataEndCount_append (a b : List Char) (hb1 : b.head? ≠ some ']')
    (hb2 : b.head? ≠ some '>') :
    cdataEndCount (a ++ b) = cdataEndCount a + cdataEndCount b :=
  cdataEndCount_append_aux b hb1 hb2 a.length a le_rfl

theorem cdataEndCount_le_append_aux :
    ∀ (n : Nat) (a b : List Char), a.length ≤ n →
      cdataEndCount a ≤ cdataEndCount (a ++ b) := by
  intro n
  induction n with
  | zero =>
    intro a b ha
    have hnil : a = [] := List.eq_nil_of_length_eq_zero (Nat.le_zero.mp ha)
    subst hnil
    simp [cdataEndCount]
  | succ n ih =>
    intro a b ha
    match a with
    | [] => simp [cdataEndCount]
    | [c] =>
      rw [show cdataEndCount [c] = 0 from rfl]
      exact Nat.zero_le _
    | [c, c'] =>
      rw [show cdataEndCount [c, c'] = 0 from rfl]
      exact Nat.zero_le _
    | c :: c' :: c'' :: r =>
      rw [List.cons_append, List.cons_append, List.cons_append]
      by_cases hcond : c = ']' ∧ c' = ']' ∧ c'' = '>'
      · obtain ⟨rfl, rfl, rfl⟩ := hcond
        have e1 : cdataEndCount (']' :: ']' :: '>' :: (r ++ b))
            = cdataEndCount (r ++ b) + 1 := by
          simp [cdataEndCount]
        have e2 : cdataEndCount (']' :: ']' :: '>' :: r) = cdataEndCount r + 1 := by
          simp [cdataEndCount]
        rw [e1, e2]
        have := ih r b (by simp only [List.length_cons] at ha; omega)
        omega
      · have e1 : cdataEndCount (c :: c' :: c'' :: (r ++ b))
            = cdataEndCount (c' :: c'' :: (r ++ b)) := by
          simp only [cdataEndCount]
          rw [if_neg hcond]
        have e2 : cdataEndCount (c :: c' :: c'' :: r) = cdataEndCount (c' :: c'' :: r) := by
          simp only [cdataEndCount]
          rw [if_neg hcond]
        rw [e1, e2]
        exact ih (c' :: c'' :: r) b (by simp only [List.length_cons] at ha ⊢; omega)

theorem cdataEndCount_le_append (a b : List Char) :
    cdataEndCount a ≤ cdataEndCount (a ++ b) :=
  cdataEndCount_le_append_aux a.length a b le_rfl

theorem hitXmlMid_count : cdataEndCount hitXmlMid = 1 := by decide

theorem hitXmlBefore_no_bracket : ']' ∉ hitXmlBefore := by decide

theorem hitXmlMid_head : hitXmlMid.head? = some '\n' := rfl

theorem expatWellFormed_envelope_false (body : List Char) (fh : Nat)
    (hbody : 1 ≤ cdataEndCount body) :
    expatWellFormed (hitXmlChars body fh) = false := by
  have hY : (hitXmlMid ++ ((Nat.repr fh).data ++ hitXmlAfter)).head? = some '\n' := by
    rw [show hitXmlMid = '\n' :: hitXmlMid.tail from rfl, List.cons_append]
    rfl
  have h1 : cdataEndCount (hitXmlChars body fh)
      = cdataEndCount (body ++ (hitXmlMid ++ ((Nat.repr fh).data ++ hitXmlAfter))) := by
    rw [hitXmlChars, List.append_assoc, List.append_assoc, List.append_assoc]
    exact cdataEndCount_append_no_bracket _ _ hitXmlBefore_no_bracket
  have h2 : cdataEndCount (body ++ (hitXmlMid ++ ((Nat.repr fh).data ++ hitXmlAfter)))
      = cdataEndCount body + cdataEndCount (hitXmlMid ++ ((Nat.repr fh).data ++ hitXmlAfter)) :=
    cdataEndCount_append body _ (by rw [hY]; decide) (by rw [hY]; decide)
  have h3 : 1 ≤ cdataEndCount (hitXmlMid ++ ((Nat.repr fh).data ++ hitXmlAfter)) := by
    have hle := cdataEndCount_le_append hitXmlMid ((Nat.repr fh).data ++ hitXmlAfter)
    rw [hitXmlMid_count] at hle
    exact hle
  rw [expatWellFormed]
  simp only [decide_eq_false_iff_not, not_le]
  rw [h1, h2]
  omega

theorem create_html_hit_params_expat_fails (inSandbox : Bool) (basic : BasicHitParams)
    (q : List Char) (hq : 1 ≤ cdataEndCount q) :
    create_html_hit_params expatWellFormed inSandbox basic q
      = Except.error XmlError.expatError := by
  rw [create_html_hit_params, create_question_xml]
  simp only [expatWellFormed_envelope_false q basic.frame_height hq, Bool.false_eq_true,
    if_false]

theorem buildHitParamsList_error {σ : Type} (parse : List Char → Bool) (inSandbox : Bool)
    (basic : BasicHitParams) (render : σ → List Char) (data : List σ)
    (h : ∃ pt ∈ data, create_html_hit_params parse inSandbox basic (render pt)
        = Except.error XmlError.expatError) :
    buildHitParamsList parse inSandbox basic render data = Except.error XmlError.expatError := by
  induction data with
  | nil => simp at h
  | cons p rest ih =>
    obtain ⟨q, hq, hfail⟩ := h
    rw [buildHitParamsList]
    rcases List.mem_cons.mp hq with heq | hmem
    · subst heq
      rw [hfail]
    · cases hc : create_html_hit_params parse inSandbox basic (render p) with
      | error e => cases e; rfl
      | ok hp => rw [ih ⟨q, hmem, hfail⟩]

end CdataLemmas

section C5

/-- Claim C5: when the cost gate passes but some question body contains
an unescaped `]]>` (so its wrapped `HTMLQuestion` envelope is not
well-formed XML), `create_hit_group` raises the propagated XML parse
error while building the parameters, before any task-creation remote
call is attempted — the call count is 0 and nothing is submitted, for
every remote oracle and scheduler order. -/
theorem c5_malformed_question_blocks {σ τ : Type} (remote : HitParams → Except ClientError τ)
    (inSandbox : Bool) (currentBalance : ℚ) (nThreads : Nat) (basic : BasicHitParams)
    (render : σ → List Char) (data : List σ) (queueOrder : List Nat)
    (hgate : optionFloatTruthy (expected_cost data.length basic.Reward basic.MaxAssignments
        currentBalance) = true)
    (hbad : ∃ pt ∈ data, 1 ≤ cdataEndCount (render pt)) :
    create_hit_group remote expatWellFormed inSandbox currentBalance nThreads basic render
        data queueOrder = (GroupOutcome.raisedXml XmlError.expatError, 0) := by
  have hfail : ∃ pt ∈ data, create_html_hit_params expatWellFormed inSandbox basic (render pt)
      = Except.error XmlError.expatError := by
    obtain ⟨pt, hmem, hcount⟩ := hbad
    exact ⟨pt, hmem, create_html_hit_params_expat_fails inSandbox basic (render pt) hcount⟩
  rw [create_hit_group, hgate]
  simp only [Bool.true_eq_false, if_false]
  rw [buildHitParamsList_error expatWellFormed inSandbox basic render data hfail]

theorem c5_gate_example :
    optionFloatTruthy (expected_cost 1 (1 : ℚ) 1 100) = true := by
  norm_num [expected_cost, optionFloatTruthy]

/-- Witness for C5: one data point whose rendered body is exactly `]]>`. -/
theorem c5_malformed_question_blocks_witness :
    (optionFloatTruthy (expected_cost 1 (1 : ℚ) 1 100) = true
      ∧ ∃ pt ∈ ([()] : List Unit), 1 ≤ cdataEndCount ((fun _ => "]]>".data) pt))
    ∧ create_hit_group (τ := Unit) (fun _ => Except.ok ()) expatWellFormed false 100 1
        { Reward := 1, MaxAssignments := 1, frame_height := 50 } (fun _ => "]]>".data)
        [()] [0] = (GroupOutcome.raisedXml XmlError.expatError, 0) :=
  ⟨⟨c5_gate_example, by decide⟩,
   c5_malformed_question_blocks (fun _ => Except.ok ()) false 100 1
     { Reward := 1, MaxAssignments := 1, frame_height := 50 } (fun _ => "]]>".data)
     [()] [0] c5_gate_example (by decide)⟩

end C5

section CostGate

theorem expected_cost_eq (dataLen : Nat) (reward : ℚ) (maxAssignments : Nat) (balance : ℚ) :
    expected_cost dataLen reward maxAssignments balance
      = if (dataLen : ℚ) * reward * (maxAssignments : ℚ) * (1.2 : ℚ) > balance then none
        else some ((dataLen : ℚ) * reward * (maxAssignments : ℚ) * (1.2 : ℚ)) := rfl

/-- Claim C2 (amended): the cost gate computes
`totalCost = batchSize * reward * maxAssignments * 1.2` and returns the
insufficient-funds sentinel exactly when `totalCost > balance`; the
caller submits nothing exactly when `totalCost > balance` or
`totalCost = 0` (the zero cost is falsy and also aborts); with `N = 10`,
`reward = 0.05`, `maxAssignments = 3` the total cost is `1.80` and the
sentinel is returned exactly when `balance < 1.80`. -/
theorem c2_cost_gate {σ τ : Type} (remote : HitParams → Except ClientError τ)
    (parse : List Char → Bool) (inSandbox : Bool) (balance : ℚ) (nThreads : Nat)
    (basic : BasicHitParams) (render : σ → List Char) (data : List σ)
    (queueOrder : List Nat) :
    (expected_cost data.length basic.Reward basic.MaxAssignments balance = none
      ↔ (data.length : ℚ) * basic.Reward * (basic.MaxAssignments : ℚ) * (1.2 : ℚ) > balance)
    ∧ ((create_hit_group remote parse inSandbox balance nThreads basic render data queueOrder).1
          = GroupOutcome.aborted
      ↔ ((data.length : ℚ) * basic.Reward * (basic.MaxAssignments : ℚ) * (1.2 : ℚ) > balance
          ∨ (data.length : ℚ) * basic.Reward * (basic.MaxAssignments : ℚ) * (1.2 : ℚ) = 0))
    ∧ (∀ b : ℚ, expected_cost 10 (0.05 : ℚ) 3 b = none ↔ b < (1.80 : ℚ)) := by
  refine ⟨?_, ?_, ?_⟩
  · rw [expected_cost_eq]
    by_cases h : (data.length : ℚ) * basic.Reward * (basic.MaxAssignments : ℚ) * (1.2 : ℚ)
        > balance
    · simp [h]
    · simp [h]
  · by_cases h : (data.length : ℚ) * basic.Reward * (basic.MaxAssignments : ℚ) * (1.2 : ℚ)
        > balance
    · have hg : optionFloatTruthy (expected_cost data.length basic.Reward
          basic.MaxAssignments balance) = false := by
        rw [expected_cost_eq, if_pos h]
        rfl
      rw [create_hit_group, if_pos (by rw [hg])]
      simp [h]
    · by_cases h0 : (data.length : ℚ) * basic.Reward * (basic.MaxAssignments : ℚ) * (1.2 : ℚ)
          = 0
      · have hg : optionFloatTruthy (expected_cost data.length basic.Reward
            basic.MaxAssignments balance) = false := by
          rw [expected_cost_eq, if_neg h]
          simp [optionFloatTruthy, h0]
        rw [create_hit_group, if_pos (by rw [hg])]
        simp [h0]
      · have hg : optionFloatTruthy (expected_cost data.length basic.Reward
            basic.MaxAssignments balance) = true := by
          rw [expected_cost_eq, if_neg h]
          simp [optionFloatTruthy, h0]
        rw [create_hit_group, if_neg (by rw [hg]; simp)]
        cases hb : buildHitParamsList parse inSandbox basic render data with
        | error e => simp [h, h0]
        | ok hp => simp [h, h0]
  · intro b
    rw [expected_cost_eq]
    have harith : ((10 : Nat) : ℚ) * (0.05 : ℚ) * ((3 : Nat) : ℚ) * (1.2 : ℚ) = (1.80 : ℚ) := by
      norm_num
    rw [harith]
    by_cases hb : (1.80 : ℚ) > b
    · simp [hb]
    · simp [hb, not_lt.mp hb]

/-- Counterexample for C2 as stated: one data point with zero reward and
ample balance — the total cost `0` does not exceed the balance `5`, so
the claim says the gate accepts and submission proceeds, yet
`expected_cost` returns the falsy cost `0.0` and `create_hit_group`
returns the abort result, submitting nothing. -/
theorem c2_cost_gate_counterexample :
    expected_cost 1 0 3 5 = some 0
    ∧ ¬ (((1 : Nat) : ℚ) * (0 : ℚ) * ((3 : Nat) : ℚ) * (1.2 : ℚ) > 5)
    ∧ (create_hit_group (σ := Unit) (τ := Unit) (fun _ => Except.ok ()) (fun _ => true)
        false 5 1 { Reward := 0, MaxAssignments := 3, frame_height := 100 }
        (fun _ => []) [()] [0]).1 = GroupOutcome.aborted := by
  refine ⟨?_, by norm_num, ?_⟩
  · rw [expected_cost_eq]
    norm_num
  · have hg : optionFloatTruthy (expected_cost ([()] : List Unit).length
        ({ Reward := 0, MaxAssignments := 3, frame_height := 100 } : BasicHitParams).Reward
        ({ Reward := 0, MaxAssignments := 3, frame_height := 100 }
          : BasicHitParams).MaxAssignments 5) = false := by
      rw [expected_cost_eq]
      norm_num [optionFloatTruthy]
    rw [create_hit_group, if_pos (by rw [hg])]

end CostGate

section C10

/-- Claim C10: when the computed total cost is exactly 0 — empty input,
or reward times max-assignments equal to zero — `expected_cost` returns
the cost value `0.0`, which is falsy and thus treated as a refusal by
the caller: `create_hit_group` returns the abort result and submits
nothing (zero remote calls) even though the balance is sufficient. -/
theorem c10_zero_cost_aborts {σ τ : Type} (remote : HitParams → Except ClientError τ)
    (parse : List Char → Bool) (inSandbox : Bool) (balance : ℚ) (nThreads : Nat)
    (basic : BasicHitParams) (render : σ → List Char) (data : List σ)
    (queueOrder : List Nat)
    (hzero : (data.length : ℚ) * basic.Reward * (basic.MaxAssignments : ℚ) = 0)
    (hbal : 0 ≤ balance) :
    expected_cost data.length basic.Reward basic.MaxAssignments balance = some 0
    ∧ create_hit_group remote parse inSandbox balance nThreads basic render data queueOrder
        = (GroupOutcome.aborted, 0) := by
  have h1 : expected_cost data.length basic.Reward basic.MaxAssignments balance = some 0 := by
    rw [expected_cost_eq, hzero,
      if_neg (by rw [zero_mul]; exact not_lt.mpr hbal), zero_mul]
  refine ⟨h1, ?_⟩
  rw [create_hit_group, if_pos (by rw [h1]; simp [optionFloatTruthy])]

theorem rat_zero_le_five : (0 : ℚ) ≤ 5 := by norm_num

/-- Witness for C10: the empty input list with balance 5. -/
theorem c10_zero_cost_aborts_witness :
    (((([] : List Unit).length : ℚ) * (1 : ℚ) * ((3 : Nat) : ℚ) = 0 ∧ (0 : ℚ) ≤ 5)
    ∧ (expected_cost ([] : List Unit).length 1 3 5 = some 0
      ∧ create_hit_group (σ := Unit) (τ := Unit) (fun _ => Except.ok ()) (fun _ => true)
          false 5 2 { Reward := 1, MaxAssignments := 3, frame_height := 10 }
          (fun _ => []) [] [0, 1]
        = (GroupOutcome.aborted, 0))) :=
  ⟨⟨by simp, rat_zero_le_five⟩,
   c10_zero_cost_aborts (σ := Unit) (τ := Unit) (fun _ => Except.ok ()) (fun _ => true)
     false 5 2 { Reward := 1, MaxAssignments := 3, frame_height := 10 } (fun _ => []) [] [0, 1]
     (by simp) rat_zero_le_five⟩

end C10

section C6

/-- Claim C6 (amended): the qualification builder always includes the
acceptance-rate requirement (`GreaterThanOrEqualTo` the configured
threshold, default 95) and always includes the locale requirement: when
a locale set is supplied its `LocaleValues` enumerate that country-code
set, and when none is supplied the key holds a null value; every
returned requirement is marked required-to-preview. -/
theorem c6_qualifications_always_locale (inSandbox : Bool)
    (locales : Option (List String)) :
    (build_qualifications inSandbox qualifications_high_accept_rate locales).map
        (fun q => q.QualificationTypeId) = ["000000000000000000L0", "00000000000000000071"]
    ∧ (∀ q ∈ build_qualifications inSandbox qualifications_high_accept_rate locales,
        q.RequiredToPreview = true)
    ∧ (build_qualifications inSandbox qualifications_high_accept_rate locales).head?
        = some { QualificationTypeId := "000000000000000000L0"
                 Comparator := QualComparator.GreaterThanOrEqualTo
                 IntegerValues := some [95]
                 RequiredToPreview := true }
    ∧ (build_qualifications inSandbox qualifications_high_accept_rate locales)[1]?
        = some { QualificationTypeId := "00000000000000000071"
                 Comparator := QualComparator.In
                 LocaleValues := some (locales.map (fun ls => ls.map (fun loc => { Country := loc })))
                 RequiredToPreview := true } := by
  refine ⟨rfl, ?_, rfl, rfl⟩
  intro q hq
  simp only [build_qualifications, List.mem_cons, List.not_mem_nil, or_false] at hq
  rcases hq with rfl | rfl <;> rfl

/-- Counterexample for C6 as stated: with no locale set supplied
(`locales = none`, the Python default `None`), the returned list still
contains the locale requirement (type id `00000000000000000071`, with a
null `LocaleValues`), refuting "it is part of the returned requirement
list only when a locale set is supplied". -/
theorem c6_qualifications_counterexample :
    (build_qualifications false qualifications_high_accept_rate none).map
        (fun q => q.QualificationTypeId) = ["000000000000000000L0", "00000000000000000071"]
    ∧ (build_qualifications false qualifications_high_accept_rate none).length = 2
    ∧ (build_qualifications false qualifications_high_accept_rate none)[1]?
        = some { QualificationTypeId := "00000000000000000071"
                 Comparator := QualComparator.In
                 LocaleValues := some none
                 RequiredToPreview := true } :=
  ⟨rfl, rfl, rfl⟩

end C6

end MturkModel
